import Mathlib

/-!
Verification of the ASLA double-entry bookkeeping engine.

Shallow embedding of the core ledger/aggregation engine of the ASLA
application (`src/src/App.tsx`, types from `src/types.ts`).  Amounts are
natural numbers (the smallest currency unit, entered through `parseNumber`
which only ever yields non-negative integers); balances are integers.
Dates and account codes are strings compared lexicographically on their
character sequences (the app compares them with `localeCompare`, which on
ISO dates and numeric codes is the codepoint order).  JavaScript's
`Array.prototype.sort` is stable, so it is embedded as `List.mergeSort`.
-/

namespace ASLA

/-- Account categories, from `AccountType` in `types.ts`. -/
inductive AccountType where
  | ASSET
  | LIABILITY
  | EQUITY
  | REVENUE
  | EXPENSE
deriving DecidableEq, Repr

/-- An account of the chart, from `interface Account`.  The optional
`isStandard?: boolean` field is embedded as a `Bool` (absent = `false`). -/
structure Account where
  id : String
  code : String
  name : String
  type : AccountType
  isStandard : Bool
deriving DecidableEq, Repr

/-- One debit or credit line, from `interface JournalEntry`. -/
structure JournalEntry where
  accountId : String
  amount : Nat
  description : String
deriving DecidableEq, Repr

/-- A committed voucher, from `interface Voucher`. -/
structure Voucher where
  id : String
  date : String
  debitEntries : List JournalEntry
  creditEntries : List JournalEntry
  description : String
  createdAt : Nat
deriving DecidableEq, Repr

/-- The entry-form state submitted by `VoucherEntryView.handleSubmit`:
a date, an overall description and the two entry columns. -/
structure Submission where
  date : String
  description : String
  debitEntries : List JournalEntry
  creditEntries : List JournalEntry
deriving DecidableEq, Repr

/-- Lexicographic comparison of character sequences; embeds the
`a.localeCompare(b) <= 0` ordering the app uses on ISO dates and
numeric account codes. -/
def charsLe : List Char → List Char → Bool
  | [], _ => true
  | _ :: _, [] => false
  | a :: as, b :: bs => if a = b then charsLe as bs else decide (a < b)

/-- The seed chart `LOGISTICS_ACCOUNTS` from `App.tsx` (all standard). -/
def LOGISTICS_ACCOUNTS : List Account :=
  [ ⟨"101", "1101", "現金", .ASSET, true⟩,
    ⟨"102", "1102", "普通預金", .ASSET, true⟩,
    ⟨"103", "1103", "売掛金", .ASSET, true⟩,
    ⟨"104", "1201", "車両運搬具", .ASSET, true⟩,
    ⟨"201", "2101", "買掛金", .LIABILITY, true⟩,
    ⟨"202", "2102", "未払金", .LIABILITY, true⟩,
    ⟨"203", "2201", "借入金", .LIABILITY, true⟩,
    ⟨"301", "3101", "資本金", .EQUITY, true⟩,
    ⟨"401", "4101", "運送収入", .REVENUE, true⟩,
    ⟨"501", "5101", "燃料費", .EXPENSE, true⟩,
    ⟨"502", "5102", "高速道路利用料", .EXPENSE, true⟩,
    ⟨"503", "5103", "車両保守費", .EXPENSE, true⟩,
    ⟨"504", "5104", "荷造運賃", .EXPENSE, true⟩,
    ⟨"505", "5105", "荷役労務費", .EXPENSE, true⟩,
    ⟨"506", "5106", "給与手当", .EXPENSE, true⟩,
    ⟨"507", "5107", "法定福利費", .EXPENSE, true⟩ ]

/-- `totalDebit` of `VoucherEntryView`:
`debitEntries.reduce((sum, e) => sum + Number(e.amount), 0)`. -/
def totalDebit (s : Submission) : Nat :=
  s.debitEntries.foldl (fun sum e => sum + e.amount) 0

/-- `totalCredit` of `VoucherEntryView`. -/
def totalCredit (s : Submission) : Nat :=
  s.creditEntries.foldl (fun sum e => sum + e.amount) 0

/-- `isBalanced`: `totalDebit > 0 && totalDebit === totalCredit`. -/
def isBalanced (s : Submission) : Bool :=
  decide (0 < totalDebit s) && decide (totalDebit s = totalCredit s)

/-- Whether a string is blank, i.e. whether `!str.trim()` holds in
JavaScript: every character is whitespace. -/
def isBlank (str : String) : Bool :=
  str.data.all Char.isWhitespace

/-- Debit total of a committed voucher (same reduction as `totalDebit`). -/
def voucherDebitTotal (v : Voucher) : Nat :=
  v.debitEntries.foldl (fun sum e => sum + e.amount) 0

/-- Credit total of a committed voucher. -/
def voucherCreditTotal (v : Voucher) : Nat :=
  v.creditEntries.foldl (fun sum e => sum + e.amount) 0

/-- The two rejection cases of `handleSubmit`: the imbalance alert
(`ImbalancedVoucher` in the spec) and the blank-description alert. -/
inductive VoucherError where
  | ImbalancedVoucher
  | EmptyDescription
deriving DecidableEq, Repr

/-- The voucher object `handleSubmit` builds on success: fresh id,
the form's date, copied entry lists, the overall description
and a creation timestamp. -/
def mkVoucher (newId : String) (now : Nat) (s : Submission) : Voucher :=
  { id := newId, date := s.date, debitEntries := s.debitEntries,
    creditEntries := s.creditEntries, description := s.description,
    createdAt := now }

/-- `addVoucher`: `setVouchers(prev => [v, ...prev])`, most-recent-first. -/
def addVoucher (v : Voucher) (vouchers : List Voucher) : List Voucher :=
  v :: vouchers

/-- `VoucherEntryView.handleSubmit`, the spec's `appendVoucher`:
rejects unless `isBalanced`, rejects a blank overall description,
otherwise prepends the new voucher to the history. -/
def handleSubmit (newId : String) (now : Nat) (s : Submission)
    (vouchers : List Voucher) : Except VoucherError (List Voucher) :=
  if !isBalanced s then .error .ImbalancedVoucher
  else if isBlank s.description then .error .EmptyDescription
  else .ok (addVoucher (mkVoucher newId now s) vouchers)

/-- `reverseVoucher`: builds a copy of `v` with fresh id, today's date,
debit and credit sides swapped (entries copied verbatim) and a marked
description, and prepends it via `addVoucher`. -/
def reverseVoucher (newId today : String) (now : Nat) (v : Voucher)
    (vouchers : List Voucher) : List Voucher :=
  addVoucher
    { id := newId, date := today,
      debitEntries := v.creditEntries, creditEntries := v.debitEntries,
      description := "【反対仕訳】" ++ v.description, createdAt := now }
    vouchers

/-- Histories reachable through successful `handleSubmit` calls only. -/
inductive BuiltByAppend : List Voucher → Prop where
  | nil : BuiltByAppend []
  | append (newId : String) (now : Nat) (s : Submission) (H H' : List Voucher) :
      BuiltByAppend H → handleSubmit newId now s H = .ok H' → BuiltByAppend H'

/-- Histories reachable through successful `handleSubmit` calls whose
entry lines reference accounts of the chart `accounts` (the entry form's
account selector only offers chart accounts). -/
inductive BuiltByAppendOn (accounts : List Account) : List Voucher → Prop where
  | nil : BuiltByAppendOn accounts []
  | append (newId : String) (now : Nat) (s : Submission) (H H' : List Voucher) :
      BuiltByAppendOn accounts H →
      (∀ e ∈ s.debitEntries ++ s.creditEntries, ∃ a ∈ accounts, a.id = e.accountId) →
      handleSubmit newId now s H = .ok H' → BuiltByAppendOn accounts H'

/-- One displayed row of the general ledger. -/
structure LedgerLine where
  date : String
  desc : String
  debit : Nat
  credit : Nat
  balance : Int
deriving DecidableEq, Repr

/-- `accounts.find(a => a.id === selectedAccountId)` followed by
`account?.type === ASSET || account?.type === EXPENSE`
(`false` when the account is absent, as `undefined` matches neither). -/
def isAssetOrExpense (accounts : List Account) (selectedId : String) : Bool :=
  match accounts.find? (fun a => a.id == selectedId) with
  | some a => a.type == .ASSET || a.type == .EXPENSE
  | none => false

/-- `[...vouchers].sort((a, b) => a.date.localeCompare(b.date))`:
a stable ascending sort by date. -/
def sortedVouchers (vouchers : List Voucher) : List Voucher :=
  vouchers.mergeSort (fun a b => charsLe a.date.data b.date.data)

/-- Processing of one debit entry inside `GeneralLedgerView.ledgerLines`:
on a match, add `+amount` (asset/expense) or `-amount` to the running
balance and push a line carrying the entry description when non-empty,
else the voucher description. -/
def ledgerDebitStep (accounts : List Account) (selectedId : String) (v : Voucher)
    (st : Int × List LedgerLine) (e : JournalEntry) : Int × List LedgerLine :=
  if e.accountId == selectedId then
    let isAE := isAssetOrExpense accounts selectedId
    let balance := st.1 + (if isAE then (e.amount : Int) else -(e.amount : Int))
    (balance,
     st.2 ++ [{ date := v.date,
                desc := if e.description == "" then v.description else e.description,
                debit := e.amount, credit := 0, balance := balance }])
  else st

/-- Processing of one credit entry inside `GeneralLedgerView.ledgerLines`
(opposite sign convention). -/
def ledgerCreditStep (accounts : List Account) (selectedId : String) (v : Voucher)
    (st : Int × List LedgerLine) (e : JournalEntry) : Int × List LedgerLine :=
  if e.accountId == selectedId then
    let isAE := isAssetOrExpense accounts selectedId
    let balance := st.1 + (if isAE then -(e.amount : Int) else (e.amount : Int))
    (balance,
     st.2 ++ [{ date := v.date,
                desc := if e.description == "" then v.description else e.description,
                debit := 0, credit := e.amount, balance := balance }])
  else st

/-- Processing of one voucher: its debit entries, then its credit entries. -/
def ledgerVoucherStep (accounts : List Account) (selectedId : String)
    (st : Int × List LedgerLine) (v : Voucher) : Int × List LedgerLine :=
  v.creditEntries.foldl (ledgerCreditStep accounts selectedId v)
    (v.debitEntries.foldl (ledgerDebitStep accounts selectedId v) st)

/-- `GeneralLedgerView.ledgerLines`, the spec's `ledgerFor`:
traverse the date-sorted history with running balance starting at 0
and emit one line per entry matching the selected account. -/
def ledgerLines (accounts : List Account) (vouchers : List Voucher)
    (selectedId : String) : List LedgerLine :=
  ((sortedVouchers vouchers).foldl (ledgerVoucherStep accounts selectedId) (0, [])).2

/-- The running balance of the last ledger line, 0 when there are no lines. -/
def lastBalance (lines : List LedgerLine) : Int :=
  (lines.getLast?.map (fun l => l.balance)).getD 0

/-- Sum, across the whole history, of the debit-entry amounts referencing
`accId` (`debitTotal` accumulation in `TrialBalanceView.tbData`). -/
def entryDebitTotal (vouchers : List Voucher) (accId : String) : Nat :=
  vouchers.foldl
    (fun sum v =>
      v.debitEntries.foldl (fun t e => if e.accountId == accId then t + e.amount else t) sum)
    0

/-- Sum of the credit-entry amounts referencing `accId`. -/
def entryCreditTotal (vouchers : List Voucher) (accId : String) : Nat :=
  vouchers.foldl
    (fun sum v =>
      v.creditEntries.foldl (fun t e => if e.accountId == accId then t + e.amount else t) sum)
    0

/-- The net balance both aggregation views compute for an account:
debit-minus-credit for asset/expense accounts, credit-minus-debit for
the other types. -/
def accountBalance (vouchers : List Voucher) (account : Account) : Int :=
  if account.type == .ASSET || account.type == .EXPENSE then
    (entryDebitTotal vouchers account.id : Int) - entryCreditTotal vouchers account.id
  else
    (entryCreditTotal vouchers account.id : Int) - entryDebitTotal vouchers account.id

/-- One row of the trial balance. -/
structure TBRow where
  code : String
  name : String
  type : AccountType
  debitTotal : Nat
  creditTotal : Nat
  balance : Int
deriving DecidableEq, Repr

/-- The trial-balance row `TrialBalanceView.tbData` computes for one account. -/
def tbRow (vouchers : List Voucher) (account : Account) : TBRow :=
  { code := account.code, name := account.name, type := account.type,
    debitTotal := entryDebitTotal vouchers account.id,
    creditTotal := entryCreditTotal vouchers account.id,
    balance := accountBalance vouchers account }

/-- `TrialBalanceView.tbData`, the spec's `trialBalance`: one row per chart
account, rows with zero debit total and zero credit total filtered out. -/
def tbData (accounts : List Account) (vouchers : List Voucher) : List TBRow :=
  (accounts.map (tbRow vouchers)).filter
    (fun d => !(d.debitTotal == 0) || !(d.creditTotal == 0))

/-- `TrialBalanceView.totals`: grand debit and credit totals of the rows. -/
def totals (rows : List TBRow) : Nat × Nat :=
  rows.foldl (fun acc curr => (acc.1 + curr.debitTotal, acc.2 + curr.creditTotal)) (0, 0)

/-- One profit-and-loss or balance-sheet item of the financial statements. -/
structure FSItem where
  name : String
  amount : Int
  type : AccountType
deriving DecidableEq, Repr

/-- The value of `FinancialStatementsView.statement`. -/
structure FSStatement where
  plItems : List FSItem
  bsItems : List FSItem
  netIncome : Int
deriving DecidableEq, Repr

/-- Processing of one chart account inside `FinancialStatementsView.statement`:
skip when the net balance is zero, else push a P/L item (accumulating net
income) or a balance-sheet item. -/
def statementStep (vouchers : List Voucher) (st : FSStatement)
    (account : Account) : FSStatement :=
  let amount := accountBalance vouchers account
  if amount == 0 then st
  else if account.type == .REVENUE || account.type == .EXPENSE then
    { st with
      plItems := st.plItems ++ [⟨account.name, amount, account.type⟩],
      netIncome := st.netIncome + (if account.type == .REVENUE then amount else -amount) }
  else
    { st with bsItems := st.bsItems ++ [⟨account.name, amount, account.type⟩] }

/-- `FinancialStatementsView.statement`, the spec's `financialStatements`. -/
def statement (accounts : List Account) (vouchers : List Voucher) : FSStatement :=
  accounts.foldl (statementStep vouchers) ⟨[], [], 0⟩

/-- The two rejection cases of `SettingsView.addAccount`. -/
inductive AddAccountError where
  | InvalidInput
  | DuplicateCode
deriving DecidableEq, Repr

/-- `SettingsView.addAccount`: rejects an empty code or name, rejects a
duplicate code, otherwise appends the new account (fresh id, `isStandard`
unset) and re-sorts the chart ascending by code (stable string sort). -/
def addAccount (newId code name : String) (ty : AccountType)
    (accounts : List Account) : Except AddAccountError (List Account) :=
  if code == "" || name == "" then .error .InvalidInput
  else if accounts.any (fun a => a.code == code) then .error .DuplicateCode
  else .ok ((accounts ++ [({ id := newId, code := code, name := name, type := ty,
                             isStandard := false } : Account)]).mergeSort
              (fun a b => charsLe a.code.data b.code.data))

/-- The rejection cases of account removal. -/
inductive RemoveAccountError where
  | Protected
  | NotFound
deriving DecidableEq, Repr

/-- Account removal as exposed by `SettingsView`: the delete button invoking
`removeAccount` (`prev.filter(a => a.id !== id)`) is only rendered when
`!a.isStandard`, so a standard account is rejected (the spec's `Protected`)
and an absent id offers no operation at all (the spec's `NotFound`). -/
def removeAccount (accounts : List Account) (targetId : String) :
    Except RemoveAccountError (List Account) :=
  match accounts.find? (fun a => a.id == targetId) with
  | none => .error .NotFound
  | some a =>
    if a.isStandard then .error .Protected
    else .ok (accounts.filter (fun b => !(b.id == targetId)))

/-- A voucher history with every entry line not referencing a chart account
dropped; used to state that unmatched entries contribute nothing. -/
def restrictEntries (accounts : List Account) (v : Voucher) : Voucher :=
  { v with
    debitEntries := v.debitEntries.filter
      (fun e => accounts.any (fun a => a.id == e.accountId)),
    creditEntries := v.creditEntries.filter
      (fun e => accounts.any (fun a => a.id == e.accountId)) }

/-- Restriction of a whole history to entry lines referencing the chart. -/
def restrictToChart (accounts : List Account) (vouchers : List Voucher) : List Voucher :=
  vouchers.map (restrictEntries accounts)

/-- Total amount of the entries of `es` referencing `accId`. -/
def entriesMatchedTotal (accId : String) (es : List JournalEntry) : Nat :=
  ((es.filter (fun e => e.accountId == accId)).map (fun e => e.amount)).sum

/-! ### Specification-side description of the general ledger

The definitions below follow §4.3 of the spec word for word: flatten the
date-sorted history into the sequence of entries matching the target account
(each voucher's debit entries first, then its credit entries), and emit one
line per entry, carrying the running balance after that entry under the
type-dependent sign convention. -/

/-- One matching entry together with its voucher's date and description
and the side it sits on. -/
structure TaggedEntry where
  date : String
  vdesc : String
  isDebit : Bool
  entry : JournalEntry
deriving DecidableEq, Repr

/-- The signed contribution of an entry to the running balance: a debit
counts positively on an asset/expense account and negatively otherwise,
a credit the other way around. -/
def signedAmount (isAE isDebit : Bool) (amount : Nat) : Int :=
  if isAE == isDebit then (amount : Int) else -(amount : Int)

/-- Debit entries of `v` matching the target, in entry order, tagged. -/
def tagsOfDebit (selectedId : String) (v : Voucher)
    (es : List JournalEntry) : List TaggedEntry :=
  (es.filter (fun e => e.accountId == selectedId)).map
    (fun e => ⟨v.date, v.description, true, e⟩)

/-- Credit entries of `v` matching the target, in entry order, tagged. -/
def tagsOfCredit (selectedId : String) (v : Voucher)
    (es : List JournalEntry) : List TaggedEntry :=
  (es.filter (fun e => e.accountId == selectedId)).map
    (fun e => ⟨v.date, v.description, false, e⟩)

/-- All entries of one voucher matching the target: debits, then credits. -/
def taggedOf (selectedId : String) (v : Voucher) : List TaggedEntry :=
  tagsOfDebit selectedId v v.debitEntries ++ tagsOfCredit selectedId v v.creditEntries

/-- The ledger line emitted for one matching entry: the voucher's date, the
entry description when non-empty else the voucher description, the amount in
the appropriate column with 0 in the other, and the given running balance. -/
def specLine (_isAE : Bool) (t : TaggedEntry) (balance : Int) : LedgerLine :=
  { date := t.date,
    desc := if t.entry.description == "" then t.vdesc else t.entry.description,
    debit := if t.isDebit then t.entry.amount else 0,
    credit := if t.isDebit then 0 else t.entry.amount,
    balance := balance }

/-- Lines for a sequence of matching entries, threading the running balance. -/
def specLines (isAE : Bool) : Int → List TaggedEntry → List LedgerLine
  | _, [] => []
  | bal, t :: ts =>
    specLine isAE t (bal + signedAmount isAE t.isDebit t.entry.amount)
      :: specLines isAE (bal + signedAmount isAE t.isDebit t.entry.amount) ts

/-- Total signed contribution of a sequence of matching entries. -/
def signedSum (isAE : Bool) (ts : List TaggedEntry) : Int :=
  (ts.map (fun t => signedAmount isAE t.isDebit t.entry.amount)).sum

/-- One ledger step expressed on a tagged entry. -/
def stepOfTag (isAE : Bool) (st : Int × List LedgerLine) (t : TaggedEntry) :
    Int × List LedgerLine :=
  (st.1 + signedAmount isAE t.isDebit t.entry.amount,
   st.2 ++ [specLine isAE t (st.1 + signedAmount isAE t.isDebit t.entry.amount)])

/-- Last balance of a line list, with an explicit default. -/
def lastBalD (d : Int) (lines : List LedgerLine) : Int :=
  (lines.getLast?.map (fun l => l.balance)).getD d

/-- The zero-activity test of the trial balance, at the account level. -/
def hasActivity (vouchers : List Voucher) (account : Account) : Bool :=
  !(entryDebitTotal vouchers account.id == 0) || !(entryCreditTotal vouchers account.id == 0)

/-- Profit-and-loss account types. -/
def isPLType (t : AccountType) : Bool :=
  t == .REVENUE || t == .EXPENSE

/-- The statement item built for one account. -/
def fsItem (vouchers : List Voucher) (account : Account) : FSItem :=
  ⟨account.name, accountBalance vouchers account, account.type⟩

/-- Contribution of one account to the accumulated net income. -/
def niContrib (vouchers : List Voucher) (account : Account) : Int :=
  if accountBalance vouchers account == 0 then 0
  else if account.type == .REVENUE || account.type == .EXPENSE then
    (if account.type == .REVENUE then accountBalance vouchers account
     else -accountBalance vouchers account)
  else 0

/-- Net contribution of a single voucher to one account's balance under the
trial-balance sign convention. -/
def voucherNet (a : Account) (v : Voucher) : Int :=
  if a.type == .ASSET || a.type == .EXPENSE then
    (entriesMatchedTotal a.id v.debitEntries : Int)
      - entriesMatchedTotal a.id v.creditEntries
  else
    (entriesMatchedTotal a.id v.creditEntries : Int)
      - entriesMatchedTotal a.id v.debitEntries

/-! ## Concrete fixtures used by witnesses and counterexamples -/

/-- A balanced submission whose overall description is blank. -/
def blankDescSubmission : Submission :=
  ⟨"2024-01-05", "", [⟨"101", 100, ""⟩], [⟨"401", 100, ""⟩]⟩

/-- A balanced submission with a non-blank description. -/
def saleSubmission : Submission :=
  ⟨"2024-01-05", "cash sale", [⟨"101", 100, ""⟩], [⟨"401", 100, ""⟩]⟩

/-- A two-account chart used in several witnesses. -/
def cashAccount : Account := ⟨"101", "1101", "Cash", .ASSET, true⟩

def salesAccount : Account := ⟨"401", "4101", "Sales", .REVENUE, true⟩

def smallChart : List Account := [cashAccount, salesAccount]

/-- The history obtained by one successful submission of `saleSubmission`. -/
def smallHistory : List Voucher := [mkVoucher "v-1" 7 saleSubmission]

/-! Fixtures for C10: a chart with a standard and a removable account, and a
history with one balanced voucher referencing both. -/

def c10Chart : List Account :=
  [⟨"101", "1101", "現金", .ASSET, true⟩, ⟨"901", "9901", "仮勘定", .ASSET, false⟩]

def c10Submission : Submission :=
  ⟨"2024-01-05", "sale", [⟨"101", 100, ""⟩], [⟨"901", 100, ""⟩]⟩

def c10History : List Voucher := [mkVoucher "v-1" 7 c10Submission]

def c10ChartAfter : List Account := [⟨"101", "1101", "現金", .ASSET, true⟩]

/-! ### Basic facts about the lexicographic comparator -/

theorem charsLe_refl (l : List Char) : charsLe l l = true := by
  induction l with
  | nil => rfl
  | cons a as ih => simp [charsLe, ih]

theorem charsLe_trans : ∀ a b c : List Char,
    charsLe a b = true → charsLe b c = true → charsLe a c = true
  | [], _, _, _, _ => rfl
  | _ :: _, [], _, h1, _ => by simp [charsLe] at h1
  | _ :: _, _ :: _, [], _, h2 => by simp [charsLe] at h2
  | a :: as, b :: bs, c :: cs, h1, h2 => by
    simp only [charsLe] at h1 h2 ⊢
    by_cases hab : a = b
    · subst hab
      rw [if_pos rfl] at h1
      by_cases hbc : a = c
      · subst hbc
        rw [if_pos rfl] at h2 ⊢
        exact charsLe_trans as bs cs h1 h2
      · rw [if_neg hbc] at h2 ⊢
        exact h2
    · rw [if_neg hab] at h1
      have hab' : a < b := of_decide_eq_true h1
      by_cases hbc : b = c
      · have hac' : a < c := hbc ▸ hab'
        rw [if_neg (ne_of_lt hac')]
        exact decide_eq_true hac'
      · rw [if_neg hbc] at h2
        have hbc' : b < c := of_decide_eq_true h2
        have hac' : a < c := lt_trans hab' hbc'
        have hac : ¬ a = c := ne_of_lt hac'
        rw [if_neg hac]
        exact decide_eq_true hac'

theorem charsLe_total : ∀ a b : List Char, (charsLe a b || charsLe b a) = true
  | [], _ => rfl
  | _ :: _, [] => rfl
  | a :: as, b :: bs => by
    simp only [charsLe]
    by_cases hab : a = b
    · subst hab
      simp only [if_pos rfl]
      exact charsLe_total as bs
    · have hba : ¬ b = a := fun h => hab h.symm
      rw [if_neg hab, if_neg hba]
      rcases lt_trichotomy a b with h | h | h
      · simp [h]
      · exact absurd h hab
      · simp [h]

/-! ### Generic summation helpers -/

theorem sum_map_add {α M : Type _} [AddCommMonoid M] (f g : α → M) (l : List α) :
    (l.map (fun x => f x + g x)).sum = (l.map f).sum + (l.map g).sum := by
  induction l with
  | nil => simp
  | cons a l ih => simp [ih]; exact add_add_add_comm _ _ _ _

theorem sum_map_eq_zero {α M : Type _} [AddCommMonoid M] (f : α → M) (l : List α)
    (h : ∀ x ∈ l, f x = 0) : (l.map f).sum = 0 := by
  induction l with
  | nil => simp
  | cons a l ih =>
    simp only [List.map_cons, List.sum_cons]
    rw [h a (by simp), ih (fun x hx => h x (by simp [hx])), add_zero]

theorem sum_map_sum_comm {α β M : Type _} [AddCommMonoid M]
    (l : List α) (m : List β) (f : α → β → M) :
    (l.map (fun a => (m.map (f a)).sum)).sum
      = (m.map (fun b => (l.map (fun a => f a b)).sum)).sum := by
  induction l with
  | nil => simp [sum_map_eq_zero]
  | cons a l ih =>
    simp only [List.map_cons, List.sum_cons, ih]
    rw [← sum_map_add]

theorem sum_map_filter_of_zero {α M : Type _} [AddCommMonoid M]
    (p : α → Bool) (f : α → M) (l : List α) (h : ∀ x ∈ l, p x = false → f x = 0) :
    ((l.filter p).map f).sum = (l.map f).sum := by
  induction l with
  | nil => simp
  | cons a l ih =>
    have ih' := ih (fun x hx => h x (by simp [hx]))
    by_cases hp : p a = true
    · simp [List.filter_cons, hp, ih']
    · have hp' : p a = false := by simpa using hp
      simp [List.filter_cons, hp', ih', h a (by simp) hp']

theorem sum_map_sub_int {α : Type _} (f g : α → Int) (l : List α) :
    (l.map (fun x => f x - g x)).sum = (l.map f).sum - (l.map g).sum := by
  induction l with
  | nil => simp
  | cons a l ih => simp [ih]; ring

theorem sum_map_cast_nat {α : Type _} (f : α → Nat) (l : List α) :
    (l.map (fun x => ((f x : Nat) : Int))).sum = (((l.map f).sum : Nat) : Int) := by
  induction l with
  | nil => simp
  | cons a l ih => simp [ih]

theorem sum_map_neg_cast_nat {α : Type _} (f : α → Nat) (l : List α) :
    (l.map (fun x => -((f x : Nat) : Int))).sum = -(((l.map f).sum : Nat) : Int) := by
  induction l with
  | nil => simp
  | cons a l ih => simp [ih]; ring

theorem foldl_congr_mem {α β : Type _} (f g : β → α → β) (l : List α)
    (h : ∀ a ∈ l, ∀ st, f st a = g st a) : ∀ st, l.foldl f st = l.foldl g st := by
  induction l with
  | nil => intro st; rfl
  | cons a l ih =>
    intro st
    simp only [List.foldl_cons]
    rw [h a (by simp) st]
    exact ih (fun x hx st => h x (by simp [hx]) st) _

/-! ### Characterizing the accumulated entry totals -/

theorem foldl_match_add (accId : String) (es : List JournalEntry) :
    ∀ s : Nat,
      es.foldl (fun t e => if e.accountId == accId then t + e.amount else t) s
        = s + entriesMatchedTotal accId es := by
  induction es with
  | nil => intro s; simp [entriesMatchedTotal]
  | cons e es ih =>
    intro s
    rw [List.foldl_cons]
    by_cases h : (e.accountId == accId) = true
    · rw [if_pos h, ih]
      have hsplit : entriesMatchedTotal accId (e :: es)
          = e.amount + entriesMatchedTotal accId es := by
        simp [entriesMatchedTotal, List.filter_cons, h]
      rw [hsplit]
      omega
    · rw [if_neg h, ih]
      have h' : (e.accountId == accId) = false := by simpa using h
      have hsplit : entriesMatchedTotal accId (e :: es) = entriesMatchedTotal accId es := by
        simp [entriesMatchedTotal, List.filter_cons, h']
      rw [hsplit]

theorem foldl_amount_add (es : List JournalEntry) :
    ∀ s : Nat, es.foldl (fun t e => t + e.amount) s = s + (es.map (fun e => e.amount)).sum := by
  induction es with
  | nil => intro s; simp
  | cons e es ih => intro s; simp [ih, Nat.add_assoc]

theorem entryDebitTotal_eq (vouchers : List Voucher) (accId : String) :
    entryDebitTotal vouchers accId
      = (vouchers.map (fun v => entriesMatchedTotal accId v.debitEntries)).sum := by
  suffices h : ∀ s : Nat,
      vouchers.foldl
        (fun sum v =>
          v.debitEntries.foldl (fun t e => if e.accountId == accId then t + e.amount else t) sum)
        s
        = s + (vouchers.map (fun v => entriesMatchedTotal accId v.debitEntries)).sum by
    simpa [entryDebitTotal] using h 0
  induction vouchers with
  | nil => intro s; simp
  | cons v vs ih =>
    intro s
    rw [List.foldl_cons, foldl_match_add accId v.debitEntries, ih,
      List.map_cons, List.sum_cons]
    omega

theorem entryCreditTotal_eq (vouchers : List Voucher) (accId : String) :
    entryCreditTotal vouchers accId
      = (vouchers.map (fun v => entriesMatchedTotal accId v.creditEntries)).sum := by
  suffices h : ∀ s : Nat,
      vouchers.foldl
        (fun sum v =>
          v.creditEntries.foldl (fun t e => if e.accountId == accId then t + e.amount else t) sum)
        s
        = s + (vouchers.map (fun v => entriesMatchedTotal accId v.creditEntries)).sum by
    simpa [entryCreditTotal] using h 0
  induction vouchers with
  | nil => intro s; simp
  | cons v vs ih =>
    intro s
    rw [List.foldl_cons, foldl_match_add accId v.creditEntries, ih,
      List.map_cons, List.sum_cons]
    omega

theorem voucherDebitTotal_eq (v : Voucher) :
    voucherDebitTotal v = (v.debitEntries.map (fun e => e.amount)).sum := by
  simpa [voucherDebitTotal] using foldl_amount_add v.debitEntries 0

theorem voucherCreditTotal_eq (v : Voucher) :
    voucherCreditTotal v = (v.creditEntries.map (fun e => e.amount)).sum := by
  simpa [voucherCreditTotal] using foldl_amount_add v.creditEntries 0

theorem totals_eq (rows : List TBRow) :
    totals rows = ((rows.map (fun r => r.debitTotal)).sum,
                   (rows.map (fun r => r.creditTotal)).sum) := by
  suffices h : ∀ p : Nat × Nat,
      rows.foldl (fun acc curr => (acc.1 + curr.debitTotal, acc.2 + curr.creditTotal)) p
        = (p.1 + (rows.map (fun r => r.debitTotal)).sum,
           p.2 + (rows.map (fun r => r.creditTotal)).sum) by
    simpa [totals] using h (0, 0)
  induction rows with
  | nil => intro p; simp
  | cons r rows ih => intro p; simp [ih, Nat.add_assoc]

/-- On a chart with pairwise-distinct ids, summing the indicator of one
referenced id over the chart yields the amount exactly once. -/
theorem sum_indicator_single (accounts : List Account) (aid : String) (amt : Nat)
    (hnd : (accounts.map (fun a => a.id)).Nodup)
    (hmem : ∃ a ∈ accounts, a.id = aid) :
    (accounts.map (fun a => if (aid == a.id) = true then amt else 0)).sum = amt := by
  induction accounts with
  | nil => simp at hmem
  | cons a0 accs ih =>
    simp only [List.map_cons, List.nodup_cons] at hnd
    by_cases h0 : a0.id = aid
    · have hbeq : (aid == a0.id) = true := by simp [h0]
      have hrest : ∀ a ∈ accs, (if (aid == a.id) = true then amt else 0) = 0 := by
        intro a ha
        have hne : a.id ≠ aid := by
          intro hcontra
          exact hnd.1 (by
            rw [← h0] at hcontra
            exact List.mem_map.mpr ⟨a, ha, hcontra⟩)
        have hfalse : (aid == a.id) = false :=
          beq_eq_false_iff_ne.mpr (fun hc => hne hc.symm)
        rw [hfalse]
        simp
      rw [List.map_cons, List.sum_cons, if_pos hbeq, sum_map_eq_zero _ _ hrest,
        Nat.add_zero]
    · have hbeq : (aid == a0.id) = false :=
        beq_eq_false_iff_ne.mpr (fun hc => h0 hc.symm)
      obtain ⟨a, ha, haid⟩ := hmem
      rcases List.mem_cons.mp ha with rfl | ha'
      · exact absurd haid h0
      · have hIH := ih hnd.2 ⟨a, ha', haid⟩
        rw [List.map_cons, List.sum_cons]
        simpa [hbeq] using hIH

/-- Summing the per-account matched totals over a duplicate-free chart that
covers every entry reference recovers the plain total of the entry list. -/
theorem sum_matched_chart (accounts : List Account) (es : List JournalEntry)
    (hnd : (accounts.map (fun a => a.id)).Nodup)
    (href : ∀ e ∈ es, ∃ a ∈ accounts, a.id = e.accountId) :
    (accounts.map (fun a => entriesMatchedTotal a.id es)).sum
      = (es.map (fun e => e.amount)).sum := by
  induction es with
  | nil => simp [entriesMatchedTotal]
  | cons e es ih =>
    have hsplit : ∀ a : Account,
        entriesMatchedTotal a.id (e :: es)
          = (if (e.accountId == a.id) = true then e.amount else 0)
            + entriesMatchedTotal a.id es := by
      intro a
      by_cases h : (e.accountId == a.id) = true
      · simp [entriesMatchedTotal, List.filter_cons, h]
      · have h' : (e.accountId == a.id) = false := by simpa using h
        simp [entriesMatchedTotal, List.filter_cons, h']
    calc (accounts.map (fun a => entriesMatchedTotal a.id (e :: es))).sum
        = (accounts.map (fun a =>
            (if (e.accountId == a.id) = true then e.amount else 0)
              + entriesMatchedTotal a.id es)).sum := by
          exact congrArg List.sum (List.map_congr_left (fun a _ => hsplit a))
      _ = (accounts.map (fun a => if (e.accountId == a.id) = true then e.amount else 0)).sum
            + (accounts.map (fun a => entriesMatchedTotal a.id es)).sum :=
          sum_map_add _ _ _
      _ = e.amount + (es.map (fun e => e.amount)).sum := by
          rw [sum_indicator_single accounts e.accountId e.amount hnd
                (href e (by simp)),
              ih (fun x hx => href x (by simp [hx]))]
      _ = ((e :: es).map (fun e => e.amount)).sum := by simp

/-! ### Successful submissions and reachable histories -/

theorem handleSubmit_ok_iff (newId : String) (now : Nat) (s : Submission)
    (vouchers H' : List Voucher) :
    handleSubmit newId now s vouchers = .ok H'
      ↔ totalDebit s = totalCredit s ∧ 0 < totalDebit s
          ∧ isBlank s.description = false
          ∧ H' = mkVoucher newId now s :: vouchers := by
  constructor
  · intro h
    by_cases hb : isBalanced s = true
    · by_cases hd : isBlank s.description = true
      · simp [handleSubmit, hb, hd] at h
      · have hd' : isBlank s.description = false := by simpa using hd
        have hmain : addVoucher (mkVoucher newId now s) vouchers = H' := by
          simpa [handleSubmit, hb, hd'] using h
        have hbal := hb
        simp only [isBalanced, Bool.and_eq_true, decide_eq_true_eq] at hbal
        refine ⟨hbal.2, hbal.1, hd', ?_⟩
        rw [← hmain]
        rfl
    · have hb' : isBalanced s = false := by simpa using hb
      simp [handleSubmit, hb'] at h
  · rintro ⟨h1, h2, h3, rfl⟩
    have hb : isBalanced s = true := by
      unfold isBalanced
      rw [decide_eq_true h2, decide_eq_true h1]
      rfl
    simp [handleSubmit, hb, h3, addVoucher]

theorem builtByAppendOn_invariant (accounts : List Account) (H : List Voucher)
    (hH : BuiltByAppendOn accounts H) :
    ∀ v ∈ H, voucherDebitTotal v = voucherCreditTotal v ∧ 0 < voucherDebitTotal v
      ∧ (∀ e ∈ v.debitEntries ++ v.creditEntries, ∃ a ∈ accounts, a.id = e.accountId) := by
  induction hH with
  | nil => intro v hv; simp at hv
  | append newId now s H H' _ hrefs hok ih =>
    intro v hv
    obtain ⟨h1, h2, _, rfl⟩ := (handleSubmit_ok_iff newId now s H H').mp hok
    rcases List.mem_cons.mp hv with rfl | hv'
    · exact ⟨h1, h2, hrefs⟩
    · exact ih v hv'

theorem builtByAppend_invariant (H : List Voucher) (hH : BuiltByAppend H) :
    ∀ v ∈ H, voucherDebitTotal v = voucherCreditTotal v ∧ 0 < voucherDebitTotal v := by
  induction hH with
  | nil => intro v hv; simp at hv
  | append newId now s H H' _ hok ih =>
    intro v hv
    obtain ⟨h1, h2, _, rfl⟩ := (handleSubmit_ok_iff newId now s H H').mp hok
    rcases List.mem_cons.mp hv with rfl | hv'
    · exact ⟨h1, h2⟩
    · exact ih v hv'

theorem lastBalance_eq_lastBalD (lines : List LedgerLine) :
    lastBalance lines = lastBalD 0 lines := rfl

theorem lastBalD_cons (d : Int) (x : LedgerLine) (L : List LedgerLine) :
    lastBalD d (x :: L) = lastBalD x.balance L := by
  cases L with
  | nil => rfl
  | cons y L =>
    unfold lastBalD
    rw [List.getLast?_cons_cons]
    obtain ⟨z, hz⟩ := Option.isSome_iff_exists.mp
      (List.getLast?_isSome.mpr (by simp) : (y :: L).getLast?.isSome)
    rw [hz]
    rfl

theorem signedSum_nil (isAE : Bool) : signedSum isAE [] = 0 := rfl

theorem signedSum_cons (isAE : Bool) (t : TaggedEntry) (ts : List TaggedEntry) :
    signedSum isAE (t :: ts)
      = signedAmount isAE t.isDebit t.entry.amount + signedSum isAE ts := by
  simp [signedSum]

theorem signedSum_append (isAE : Bool) (ts us : List TaggedEntry) :
    signedSum isAE (ts ++ us) = signedSum isAE ts + signedSum isAE us := by
  simp [signedSum]

theorem specLines_append (isAE : Bool) (ts us : List TaggedEntry) :
    ∀ bal : Int,
      specLines isAE bal (ts ++ us)
        = specLines isAE bal ts ++ specLines isAE (bal + signedSum isAE ts) us := by
  induction ts with
  | nil => intro bal; simp [specLines, signedSum_nil]
  | cons t ts ih =>
    intro bal
    rw [List.cons_append]
    show specLine isAE t (bal + signedAmount isAE t.isDebit t.entry.amount)
          :: specLines isAE (bal + signedAmount isAE t.isDebit t.entry.amount) (ts ++ us)
        = (specLine isAE t (bal + signedAmount isAE t.isDebit t.entry.amount)
            :: specLines isAE (bal + signedAmount isAE t.isDebit t.entry.amount) ts)
          ++ specLines isAE (bal + signedSum isAE (t :: ts)) us
    rw [List.cons_append, ih, signedSum_cons, ← add_assoc]

theorem lastBalD_specLines (isAE : Bool) (ts : List TaggedEntry) :
    ∀ bal : Int, lastBalD bal (specLines isAE bal ts) = bal + signedSum isAE ts := by
  induction ts with
  | nil => intro bal; simp [specLines, signedSum_nil, lastBalD]
  | cons t ts ih =>
    intro bal
    rw [specLines, lastBalD_cons]
    show lastBalD (bal + signedAmount isAE t.isDebit t.entry.amount) _ = _
    rw [ih, signedSum_cons, add_assoc]

theorem foldl_stepOfTag (isAE : Bool) (ts : List TaggedEntry) :
    ∀ (b : Int) (L : List LedgerLine),
      ts.foldl (stepOfTag isAE) (b, L)
        = (b + signedSum isAE ts, L ++ specLines isAE b ts) := by
  induction ts with
  | nil => intro b L; simp [signedSum_nil, specLines]
  | cons t ts ih =>
    intro b L
    rw [List.foldl_cons]
    show ts.foldl (stepOfTag isAE)
        (b + signedAmount isAE t.isDebit t.entry.amount,
         L ++ [specLine isAE t (b + signedAmount isAE t.isDebit t.entry.amount)]) = _
    rw [ih, signedSum_cons, specLines]
    refine Prod.ext ?_ ?_
    · simp [add_assoc]
    · simp

theorem foldl_ledgerDebitStep (accounts : List Account) (selectedId : String)
    (v : Voucher) (es : List JournalEntry) :
    ∀ st : Int × List LedgerLine,
      es.foldl (ledgerDebitStep accounts selectedId v) st
        = (tagsOfDebit selectedId v es).foldl
            (stepOfTag (isAssetOrExpense accounts selectedId)) st := by
  induction es with
  | nil => intro st; simp [tagsOfDebit]
  | cons e es ih =>
    intro st
    by_cases h : (e.accountId == selectedId) = true
    · have htags : tagsOfDebit selectedId v (e :: es)
          = (⟨v.date, v.description, true, e⟩ : TaggedEntry) :: tagsOfDebit selectedId v es := by
        simp [tagsOfDebit, List.filter_cons, h]
      rw [List.foldl_cons, htags, List.foldl_cons, ih]
      congr 1
      unfold ledgerDebitStep stepOfTag specLine signedAmount
      rw [if_pos h]
      cases hAE : isAssetOrExpense accounts selectedId <;> simp
    · have h' : (e.accountId == selectedId) = false := by simpa using h
      have htags : tagsOfDebit selectedId v (e :: es) = tagsOfDebit selectedId v es := by
        simp [tagsOfDebit, List.filter_cons, h']
      rw [List.foldl_cons, htags, ih]
      congr 1
      unfold ledgerDebitStep
      rw [if_neg h]

theorem foldl_ledgerCreditStep (accounts : List Account) (selectedId : String)
    (v : Voucher) (es : List JournalEntry) :
    ∀ st : Int × List LedgerLine,
      es.foldl (ledgerCreditStep accounts selectedId v) st
        = (tagsOfCredit selectedId v es).foldl
            (stepOfTag (isAssetOrExpense accounts selectedId)) st := by
  induction es with
  | nil => intro st; simp [tagsOfCredit]
  | cons e es ih =>
    intro st
    by_cases h : (e.accountId == selectedId) = true
    · have htags : tagsOfCredit selectedId v (e :: es)
          = (⟨v.date, v.description, false, e⟩ : TaggedEntry) :: tagsOfCredit selectedId v es := by
        simp [tagsOfCredit, List.filter_cons, h]
      rw [List.foldl_cons, htags, List.foldl_cons, ih]
      congr 1
      unfold ledgerCreditStep stepOfTag specLine signedAmount
      rw [if_pos h]
      cases hAE : isAssetOrExpense accounts selectedId <;> simp
    · have h' : (e.accountId == selectedId) = false := by simpa using h
      have htags : tagsOfCredit selectedId v (e :: es) = tagsOfCredit selectedId v es := by
        simp [tagsOfCredit, List.filter_cons, h']
      rw [List.foldl_cons, htags, ih]
      congr 1
      unfold ledgerCreditStep
      rw [if_neg h]

theorem ledgerVoucherStep_eq (accounts : List Account) (selectedId : String)
    (v : Voucher) (st : Int × List LedgerLine) :
    ledgerVoucherStep accounts selectedId st v
      = (taggedOf selectedId v).foldl
          (stepOfTag (isAssetOrExpense accounts selectedId)) st := by
  unfold ledgerVoucherStep taggedOf
  rw [foldl_ledgerDebitStep, foldl_ledgerCreditStep, List.foldl_append]

theorem foldl_ledgerVoucherStep (accounts : List Account) (selectedId : String)
    (vs : List Voucher) :
    ∀ st : Int × List LedgerLine,
      vs.foldl (ledgerVoucherStep accounts selectedId) st
        = (vs.flatMap (taggedOf selectedId)).foldl
            (stepOfTag (isAssetOrExpense accounts selectedId)) st := by
  induction vs with
  | nil => intro st; simp
  | cons v vs ih =>
    intro st
    rw [List.foldl_cons, ih, List.flatMap_cons, List.foldl_append, ledgerVoucherStep_eq]

/-- The ledger view computes exactly the specification's line sequence over
the flattened, date-sorted matching entries. -/
theorem ledgerLines_eq_specLines (accounts : List Account) (vouchers : List Voucher)
    (selectedId : String) :
    ledgerLines accounts vouchers selectedId
      = specLines (isAssetOrExpense accounts selectedId) 0
          ((sortedVouchers vouchers).flatMap (taggedOf selectedId)) := by
  unfold ledgerLines
  rw [foldl_ledgerVoucherStep, foldl_stepOfTag]
  simp

theorem signedSum_flatMap (isAE : Bool) (vs : List Voucher)
    (f : Voucher → List TaggedEntry) :
    signedSum isAE (vs.flatMap f) = (vs.map (fun v => signedSum isAE (f v))).sum := by
  induction vs with
  | nil => simp [signedSum_nil]
  | cons v vs ih => rw [List.flatMap_cons, signedSum_append, ih, List.map_cons, List.sum_cons]

theorem signedSum_tagsOfDebit (isAE : Bool) (selectedId : String) (v : Voucher)
    (es : List JournalEntry) :
    signedSum isAE (tagsOfDebit selectedId v es)
      = if isAE then (entriesMatchedTotal selectedId es : Int)
        else -(entriesMatchedTotal selectedId es : Int) := by
  unfold signedSum tagsOfDebit entriesMatchedTotal signedAmount
  rw [List.map_map]
  cases isAE with
  | true => simpa using sum_map_cast_nat (fun e => e.amount) (es.filter (fun e => e.accountId == selectedId))
  | false => simpa using sum_map_neg_cast_nat (fun e => e.amount) (es.filter (fun e => e.accountId == selectedId))

theorem signedSum_tagsOfCredit (isAE : Bool) (selectedId : String) (v : Voucher)
    (es : List JournalEntry) :
    signedSum isAE (tagsOfCredit selectedId v es)
      = if isAE then -(entriesMatchedTotal selectedId es : Int)
        else (entriesMatchedTotal selectedId es : Int) := by
  unfold signedSum tagsOfCredit entriesMatchedTotal signedAmount
  rw [List.map_map]
  cases isAE with
  | true => simpa using sum_map_neg_cast_nat (fun e => e.amount) (es.filter (fun e => e.accountId == selectedId))
  | false => simpa using sum_map_cast_nat (fun e => e.amount) (es.filter (fun e => e.accountId == selectedId))

theorem signedSum_taggedOf (isAE : Bool) (selectedId : String) (v : Voucher) :
    signedSum isAE (taggedOf selectedId v)
      = if isAE then
          (entriesMatchedTotal selectedId v.debitEntries : Int)
            - entriesMatchedTotal selectedId v.creditEntries
        else
          (entriesMatchedTotal selectedId v.creditEntries : Int)
            - entriesMatchedTotal selectedId v.debitEntries := by
  unfold taggedOf
  rw [signedSum_append, signedSum_tagsOfDebit, signedSum_tagsOfCredit]
  cases isAE <;> simp <;> ring

/-! ### The date sort is a stable ascending sort -/

theorem dateLe_trans : ∀ a b c : Voucher,
    charsLe a.date.data b.date.data = true → charsLe b.date.data c.date.data = true →
    charsLe a.date.data c.date.data = true :=
  fun _ _ _ h1 h2 => charsLe_trans _ _ _ h1 h2

theorem dateLe_total : ∀ a b : Voucher,
    (charsLe a.date.data b.date.data || charsLe b.date.data a.date.data) = true :=
  fun _ _ => charsLe_total _ _

theorem codeLe_trans : ∀ x y z : Account,
    charsLe x.code.data y.code.data = true → charsLe y.code.data z.code.data = true →
    charsLe x.code.data z.code.data = true :=
  fun _ _ _ h1 h2 => charsLe_trans _ _ _ h1 h2

theorem codeLe_total : ∀ x y : Account,
    (charsLe x.code.data y.code.data || charsLe y.code.data x.code.data) = true :=
  fun _ _ => charsLe_total _ _

theorem sortedVouchers_perm (vouchers : List Voucher) :
    (sortedVouchers vouchers).Perm vouchers :=
  List.mergeSort_perm vouchers _

theorem sortedVouchers_sorted (vouchers : List Voucher) :
    (sortedVouchers vouchers).Pairwise
      (fun a b => charsLe a.date.data b.date.data = true) :=
  List.sorted_mergeSort dateLe_trans dateLe_total vouchers

theorem sortedVouchers_stable (vouchers : List Voucher) (d : String) :
    (sortedVouchers vouchers).filter (fun v => v.date == d)
      = vouchers.filter (fun v => v.date == d) := by
  have hpw : (vouchers.filter (fun v => v.date == d)).Pairwise
      (fun a b => charsLe a.date.data b.date.data = true) := by
    apply List.pairwise_of_forall_mem_list
    intro a ha b hb
    have hda : a.date = d := by simpa using (List.mem_filter.mp ha).2
    have hdb : b.date = d := by simpa using (List.mem_filter.mp hb).2
    rw [hda, hdb]
    exact charsLe_refl _
  have hsub : List.Sublist (vouchers.filter (fun v => v.date == d)) (sortedVouchers vouchers) :=
    List.sublist_mergeSort dateLe_trans dateLe_total hpw (List.filter_sublist vouchers)
  have hself : (vouchers.filter (fun v => v.date == d)).filter (fun v => v.date == d)
      = vouchers.filter (fun v => v.date == d) :=
    List.filter_eq_self.mpr (fun a ha => (List.mem_filter.mp ha).2)
  have h3 := List.Sublist.filter (fun v => v.date == d) hsub
  rw [hself] at h3
  have hlen : ((sortedVouchers vouchers).filter (fun v => v.date == d)).length
      = (vouchers.filter (fun v => v.date == d)).length :=
    ((sortedVouchers_perm vouchers).filter _).length_eq
  exact (h3.eq_of_length hlen.symm).symm

/-- The final running balance of the ledger view, expressed through the
whole-history entry totals. -/
theorem lastBalance_ledgerLines (accounts : List Account) (vouchers : List Voucher)
    (selectedId : String) :
    lastBalance (ledgerLines accounts vouchers selectedId)
      = if isAssetOrExpense accounts selectedId then
          (entryDebitTotal vouchers selectedId : Int) - entryCreditTotal vouchers selectedId
        else
          (entryCreditTotal vouchers selectedId : Int) - entryDebitTotal vouchers selectedId := by
  rw [lastBalance_eq_lastBalD, ledgerLines_eq_specLines, lastBalD_specLines,
    signedSum_flatMap]
  rw [((sortedVouchers_perm vouchers).map
    (fun v => signedSum (isAssetOrExpense accounts selectedId) (taggedOf selectedId v))).sum_eq]
  rw [List.map_congr_left
    (fun v _ => signedSum_taggedOf (isAssetOrExpense accounts selectedId) selectedId v)]
  cases hAE : isAssetOrExpense accounts selectedId with
  | true =>
    simp only [if_true]
    rw [sum_map_sub_int (fun v => (entriesMatchedTotal selectedId v.debitEntries : Int))
          (fun v => (entriesMatchedTotal selectedId v.creditEntries : Int)) vouchers,
        sum_map_cast_nat, sum_map_cast_nat, ← entryDebitTotal_eq, ← entryCreditTotal_eq]
    omega
  | false =>
    simp only [Bool.false_eq_true, if_false]
    rw [sum_map_sub_int (fun v => (entriesMatchedTotal selectedId v.creditEntries : Int))
          (fun v => (entriesMatchedTotal selectedId v.debitEntries : Int)) vouchers,
        sum_map_cast_nat, sum_map_cast_nat, ← entryDebitTotal_eq, ← entryCreditTotal_eq]
    omega

/-! ### Structure of the trial balance and the financial statements -/

theorem tbData_eq_filter_map (accounts : List Account) (vouchers : List Voucher) :
    tbData accounts vouchers
      = (accounts.filter (hasActivity vouchers)).map (tbRow vouchers) := by
  unfold tbData
  rw [List.filter_map]
  rfl

theorem statement_foldl (vouchers : List Voucher) (accounts : List Account) :
    ∀ st : FSStatement,
      accounts.foldl (statementStep vouchers) st
        = ⟨st.plItems
             ++ (accounts.filter (fun a =>
                   !(accountBalance vouchers a == 0) && isPLType a.type)).map (fsItem vouchers),
           st.bsItems
             ++ (accounts.filter (fun a =>
                   !(accountBalance vouchers a == 0) && !(isPLType a.type))).map (fsItem vouchers),
           st.netIncome + (accounts.map (niContrib vouchers)).sum⟩ := by
  induction accounts with
  | nil => intro st; simp
  | cons a accs ih =>
    intro st
    rw [List.foldl_cons, ih]
    by_cases hz : (accountBalance vouchers a == 0) = true
    · have hstep : statementStep vouchers st a = st := by
        unfold statementStep
        rw [if_pos hz]
      have hni : niContrib vouchers a = 0 := by
        unfold niContrib
        rw [if_pos hz]
      have hbz : (!(accountBalance vouchers a == 0)) = false := by simp [hz]
      simp [hstep, List.filter_cons, hbz, hni]
    · have hz' : (accountBalance vouchers a == 0) = false := by simpa using hz
      have hbz : (!(accountBalance vouchers a == 0)) = true := by simp [hz']
      by_cases hpl : isPLType a.type = true
      · have hstep : statementStep vouchers st a
            = { st with
                plItems := st.plItems ++ [fsItem vouchers a],
                netIncome := st.netIncome
                  + (if a.type == .REVENUE then accountBalance vouchers a
                     else -accountBalance vouchers a) } := by
          unfold statementStep
          rw [if_neg (by simp [hz'])]
          unfold isPLType at hpl
          rw [if_pos hpl]
          rfl
        have hni : niContrib vouchers a
            = (if a.type == .REVENUE then accountBalance vouchers a
               else -accountBalance vouchers a) := by
          unfold niContrib isPLType at *
          rw [if_neg (by simp [hz']), if_pos hpl]
        simp [hstep, List.filter_cons, hbz, hpl, hni, List.append_assoc, add_assoc]
      · have hpl' : isPLType a.type = false := by simpa using hpl
        have hstep : statementStep vouchers st a
            = { st with bsItems := st.bsItems ++ [fsItem vouchers a] } := by
          unfold statementStep
          rw [if_neg (by simp [hz'])]
          unfold isPLType at hpl'
          rw [if_neg (by simp [hpl'])]
          rfl
        have hni : niContrib vouchers a = 0 := by
          unfold niContrib isPLType at *
          rw [if_neg (by simp [hz']), if_neg (by simp [hpl'])]
        simp [hstep, List.filter_cons, hbz, hpl', hni, List.append_assoc]

theorem statement_eq (accounts : List Account) (vouchers : List Voucher) :
    statement accounts vouchers
      = ⟨(accounts.filter (fun a =>
            !(accountBalance vouchers a == 0) && isPLType a.type)).map (fsItem vouchers),
         (accounts.filter (fun a =>
            !(accountBalance vouchers a == 0) && !(isPLType a.type))).map (fsItem vouchers),
         (accounts.map (niContrib vouchers)).sum⟩ := by
  unfold statement
  rw [statement_foldl]
  simp

theorem no_activity_balance_zero (vouchers : List Voucher) (account : Account)
    (h : hasActivity vouchers account = false) : accountBalance vouchers account = 0 := by
  unfold hasActivity at h
  have hd : entryDebitTotal vouchers account.id = 0 := by
    rcases Bool.or_eq_false_iff.mp h with ⟨h1, _⟩
    simpa using h1
  have hc : entryCreditTotal vouchers account.id = 0 := by
    rcases Bool.or_eq_false_iff.mp h with ⟨_, h2⟩
    simpa using h2
  unfold accountBalance
  rw [hd, hc]
  simp

theorem balance_ne_zero_activity (vouchers : List Voucher) (account : Account)
    (h : accountBalance vouchers account ≠ 0) : hasActivity vouchers account = true := by
  by_cases ha : hasActivity vouchers account = true
  · exact ha
  · have := no_activity_balance_zero vouchers account (by simpa using ha)
    exact absurd this h

theorem sum_map_filter_indicator {α M : Type _} [AddCommMonoid M]
    (p : α → Bool) (f : α → M) (l : List α) :
    ((l.filter p).map f).sum = (l.map (fun x => if p x then f x else 0)).sum := by
  induction l with
  | nil => simp
  | cons a l ih =>
    by_cases h : p a = true
    · simp [List.filter_cons, h, ih]
    · have h' : p a = false := by simpa using h
      simp [List.filter_cons, h', ih]

/-- Sum of the net balances of the trial-balance rows of one account type. -/
theorem tb_type_balance_sum (accounts : List Account) (vouchers : List Voucher)
    (ty : AccountType) :
    (((tbData accounts vouchers).filter (fun r => r.type == ty)).map
        (fun r => r.balance)).sum
      = (accounts.map (fun a =>
          if (a.type == ty) && hasActivity vouchers a then accountBalance vouchers a
          else 0)).sum := by
  rw [tbData_eq_filter_map, List.filter_map]
  have hcomp : ((fun r => r.type == ty) ∘ tbRow vouchers)
      = fun a : Account => a.type == ty := rfl
  rw [hcomp, List.filter_filter, List.map_map]
  have hcomp2 : ((fun r => r.balance) ∘ tbRow vouchers)
      = fun a : Account => accountBalance vouchers a := rfl
  rw [hcomp2, sum_map_filter_indicator]

/-- The net-income contribution of one account splits into its revenue
indicator minus its expense indicator over the trial-balance rows. -/
theorem niContrib_split (vouchers : List Voucher) (a : Account) :
    niContrib vouchers a
      = (if (a.type == AccountType.REVENUE) && hasActivity vouchers a then
           accountBalance vouchers a else 0)
        - (if (a.type == AccountType.EXPENSE) && hasActivity vouchers a then
           accountBalance vouchers a else 0) := by
  by_cases hz : (accountBalance vouchers a == 0) = true
  · have hbal : accountBalance vouchers a = 0 := by simpa using hz
    unfold niContrib
    rw [if_pos hz, hbal]
    simp
  · have hz' : accountBalance vouchers a ≠ 0 := by simpa using hz
    have hact : hasActivity vouchers a = true := balance_ne_zero_activity vouchers a hz'
    unfold niContrib
    rw [if_neg (by simpa using hz)]
    by_cases hr : (a.type == AccountType.REVENUE) = true
    · have hrtype : a.type = AccountType.REVENUE := by simpa using hr
      have hexp : (a.type == AccountType.EXPENSE) = false := by
        rw [hrtype]; decide
      rw [if_pos (by rw [hr]; simp), if_pos hr, hr, hexp, hact]
      simp
    · have hr' : (a.type == AccountType.REVENUE) = false := by simpa using hr
      by_cases he : (a.type == AccountType.EXPENSE) = true
      · rw [if_pos (by rw [hr', he]; simp), if_neg (by rw [hr']; simp), hr', he, hact]
        simp
      · have he' : (a.type == AccountType.EXPENSE) = false := by simpa using he
        rw [if_neg (by rw [hr', he']; simp), hr', he']
        simp

/-- Grand totals of a trial balance over a duplicate-free chart covering all
entry references of a history of balanced vouchers are equal. -/
theorem grand_totals_equal (accounts : List Account) (H : List Voucher)
    (hnd : (accounts.map (fun a => a.id)).Nodup)
    (hbal : ∀ v ∈ H, voucherDebitTotal v = voucherCreditTotal v)
    (hrefs : ∀ v ∈ H, ∀ e ∈ v.debitEntries ++ v.creditEntries,
      ∃ a ∈ accounts, a.id = e.accountId) :
    (totals (tbData accounts H)).1 = (totals (tbData accounts H)).2 := by
  rw [totals_eq]
  show ((tbData accounts H).map (fun r => r.debitTotal)).sum
      = ((tbData accounts H).map (fun r => r.creditTotal)).sum
  unfold tbData
  have hd0 : ∀ r ∈ accounts.map (tbRow H),
      (fun d => !(d.debitTotal == 0) || !(d.creditTotal == 0)) r = false →
        (fun r : TBRow => r.debitTotal) r = 0 := by
    intro r _ hfalse
    rcases Bool.or_eq_false_iff.mp hfalse with ⟨h1, _⟩
    simpa using h1
  have hc0 : ∀ r ∈ accounts.map (tbRow H),
      (fun d => !(d.debitTotal == 0) || !(d.creditTotal == 0)) r = false →
        (fun r : TBRow => r.creditTotal) r = 0 := by
    intro r _ hfalse
    rcases Bool.or_eq_false_iff.mp hfalse with ⟨_, h2⟩
    simpa using h2
  rw [sum_map_filter_of_zero _ _ _ hd0, sum_map_filter_of_zero _ _ _ hc0,
    List.map_map, List.map_map]
  have hdeb : ((fun r => r.debitTotal) ∘ tbRow H)
      = fun a : Account => entryDebitTotal H a.id := rfl
  have hcred : ((fun r => r.creditTotal) ∘ tbRow H)
      = fun a : Account => entryCreditTotal H a.id := rfl
  rw [hdeb, hcred]
  calc (accounts.map (fun a => entryDebitTotal H a.id)).sum
      = (accounts.map (fun a =>
          (H.map (fun v => entriesMatchedTotal a.id v.debitEntries)).sum)).sum := by
        exact congrArg List.sum
          (List.map_congr_left (fun a _ => entryDebitTotal_eq H a.id))
    _ = (H.map (fun v =>
          (accounts.map (fun a => entriesMatchedTotal a.id v.debitEntries)).sum)).sum :=
        sum_map_sum_comm accounts H _
    _ = (H.map voucherDebitTotal).sum := by
        refine congrArg List.sum (List.map_congr_left (fun v hv => ?_))
        rw [sum_matched_chart accounts v.debitEntries hnd
          (fun e he => hrefs v hv e (List.mem_append.mpr (Or.inl he)))]
        exact (voucherDebitTotal_eq v).symm
    _ = (H.map voucherCreditTotal).sum :=
        congrArg List.sum (List.map_congr_left (fun v hv => hbal v hv))
    _ = (H.map (fun v =>
          (accounts.map (fun a => entriesMatchedTotal a.id v.creditEntries)).sum)).sum := by
        refine congrArg List.sum (List.map_congr_left (fun v hv => ?_))
        rw [sum_matched_chart accounts v.creditEntries hnd
          (fun e he => hrefs v hv e (List.mem_append.mpr (Or.inr he)))]
        exact voucherCreditTotal_eq v
    _ = (accounts.map (fun a =>
          (H.map (fun v => entriesMatchedTotal a.id v.creditEntries)).sum)).sum :=
        (sum_map_sum_comm accounts H _).symm
    _ = (accounts.map (fun a => entryCreditTotal H a.id)).sum := by
        exact congrArg List.sum
          (List.map_congr_left (fun a _ => (entryCreditTotal_eq H a.id).symm))

/-! ### Per-voucher contributions and reversal -/

/-- The aggregated net balance of an account is the sum of the per-voucher
contributions, so `voucherNet` is exactly one voucher's share of it. -/
theorem accountBalance_eq_sum_voucherNet (vouchers : List Voucher) (a : Account) :
    accountBalance vouchers a = (vouchers.map (voucherNet a)).sum := by
  unfold accountBalance
  by_cases h : (a.type == AccountType.ASSET || a.type == AccountType.EXPENSE) = true
  · rw [if_pos h]
    have hmap : vouchers.map (voucherNet a)
        = vouchers.map (fun v => (entriesMatchedTotal a.id v.debitEntries : Int)
            - entriesMatchedTotal a.id v.creditEntries) :=
      List.map_congr_left (fun v _ => by unfold voucherNet; rw [if_pos h])
    rw [hmap, sum_map_sub_int, sum_map_cast_nat, sum_map_cast_nat,
      ← entryDebitTotal_eq, ← entryCreditTotal_eq]
  · rw [if_neg h]
    have hmap : vouchers.map (voucherNet a)
        = vouchers.map (fun v => (entriesMatchedTotal a.id v.creditEntries : Int)
            - entriesMatchedTotal a.id v.debitEntries) :=
      List.map_congr_left (fun v _ => by unfold voucherNet; rw [if_neg h])
    rw [hmap, sum_map_sub_int, sum_map_cast_nat, sum_map_cast_nat,
      ← entryDebitTotal_eq, ← entryCreditTotal_eq]

/-! ### Removal of one account -/

theorem filter_ne_length (accounts : List Account) (targetId : String)
    (hnd : (accounts.map (fun x => x.id)).Nodup)
    (hmem : ∃ a ∈ accounts, a.id = targetId) :
    (accounts.filter (fun b => !(b.id == targetId))).length + 1 = accounts.length := by
  induction accounts with
  | nil => simp at hmem
  | cons a0 accs ih =>
    simp only [List.map_cons, List.nodup_cons] at hnd
    by_cases h0 : a0.id = targetId
    · have hcond : (!(a0.id == targetId)) = false := by simp [h0]
      have hall : accs.filter (fun b => !(b.id == targetId)) = accs :=
        List.filter_eq_self.mpr (fun b hb => by
          have hbne : b.id ≠ targetId := by
            intro hc
            exact hnd.1 (List.mem_map.mpr ⟨b, hb, by rw [hc, h0]⟩)
          simp [hbne])
      simp [List.filter_cons, hcond, hall]
    · have hcond : (!(a0.id == targetId)) = true := by simp [h0]
      obtain ⟨a, ha, haid⟩ := hmem
      rcases List.mem_cons.mp ha with rfl | ha'
      · exact absurd haid h0
      · have := ih hnd.2 ⟨a, ha', haid⟩
        simp only [List.filter_cons, hcond, if_pos]
        simpa using this

/-! ### Entries referencing no chart account contribute nothing -/

theorem matched_restrict (accounts : List Account) (a : Account) (ha : a ∈ accounts)
    (es : List JournalEntry) :
    entriesMatchedTotal a.id
        (es.filter (fun e => accounts.any (fun x => x.id == e.accountId)))
      = entriesMatchedTotal a.id es := by
  unfold entriesMatchedTotal
  rw [List.filter_filter]
  refine congrArg List.sum (congrArg (List.map _) (List.filter_congr (fun e _ => ?_)))
  by_cases hmatch : (e.accountId == a.id) = true
  · have hid : e.accountId = a.id := by simpa using hmatch
    have hkeep : accounts.any (fun x => x.id == e.accountId) = true :=
      List.any_eq_true.mpr ⟨a, ha, by simp [hid]⟩
    rw [hmatch, hkeep]
    rfl
  · have hmatch' : (e.accountId == a.id) = false := by simpa using hmatch
    rw [hmatch']
    simp

theorem entryDebitTotal_restrict (accounts : List Account) (vouchers : List Voucher)
    (a : Account) (ha : a ∈ accounts) :
    entryDebitTotal (restrictToChart accounts vouchers) a.id
      = entryDebitTotal vouchers a.id := by
  rw [entryDebitTotal_eq, entryDebitTotal_eq]
  unfold restrictToChart
  rw [List.map_map]
  exact congrArg List.sum
    (List.map_congr_left (fun v _ => matched_restrict accounts a ha v.debitEntries))

theorem entryCreditTotal_restrict (accounts : List Account) (vouchers : List Voucher)
    (a : Account) (ha : a ∈ accounts) :
    entryCreditTotal (restrictToChart accounts vouchers) a.id
      = entryCreditTotal vouchers a.id := by
  rw [entryCreditTotal_eq, entryCreditTotal_eq]
  unfold restrictToChart
  rw [List.map_map]
  exact congrArg List.sum
    (List.map_congr_left (fun v _ => matched_restrict accounts a ha v.creditEntries))

theorem accountBalance_restrict (accounts : List Account) (vouchers : List Voucher)
    (a : Account) (ha : a ∈ accounts) :
    accountBalance (restrictToChart accounts vouchers) a = accountBalance vouchers a := by
  unfold accountBalance
  rw [entryDebitTotal_restrict accounts vouchers a ha,
    entryCreditTotal_restrict accounts vouchers a ha]

theorem tbRow_restrict (accounts : List Account) (vouchers : List Voucher)
    (a : Account) (ha : a ∈ accounts) :
    tbRow (restrictToChart accounts vouchers) a = tbRow vouchers a := by
  unfold tbRow
  rw [entryDebitTotal_restrict accounts vouchers a ha,
    entryCreditTotal_restrict accounts vouchers a ha,
    accountBalance_restrict accounts vouchers a ha]

theorem tbData_restrict (accounts : List Account) (vouchers : List Voucher) :
    tbData accounts (restrictToChart accounts vouchers) = tbData accounts vouchers := by
  unfold tbData
  rw [List.map_congr_left (fun a ha => tbRow_restrict accounts vouchers a ha)]

theorem niContrib_restrict (accounts : List Account) (vouchers : List Voucher)
    (a : Account) (ha : a ∈ accounts) :
    niContrib (restrictToChart accounts vouchers) a = niContrib vouchers a := by
  unfold niContrib
  rw [accountBalance_restrict accounts vouchers a ha]

theorem statement_restrict (accounts : List Account) (vouchers : List Voucher) :
    statement accounts (restrictToChart accounts vouchers) = statement accounts vouchers := by
  rw [statement_eq, statement_eq]
  have hfil1 : accounts.filter (fun a =>
        !(accountBalance (restrictToChart accounts vouchers) a == 0) && isPLType a.type)
      = accounts.filter (fun a => !(accountBalance vouchers a == 0) && isPLType a.type) :=
    List.filter_congr (fun a ha => by rw [accountBalance_restrict accounts vouchers a ha])
  have hfil2 : accounts.filter (fun a =>
        !(accountBalance (restrictToChart accounts vouchers) a == 0) && !(isPLType a.type))
      = accounts.filter (fun a => !(accountBalance vouchers a == 0) && !(isPLType a.type)) :=
    List.filter_congr (fun a ha => by rw [accountBalance_restrict accounts vouchers a ha])
  rw [hfil1, hfil2]
  have hitem1 : (accounts.filter (fun a =>
        !(accountBalance vouchers a == 0) && isPLType a.type)).map
          (fsItem (restrictToChart accounts vouchers))
      = (accounts.filter (fun a =>
        !(accountBalance vouchers a == 0) && isPLType a.type)).map (fsItem vouchers) :=
    List.map_congr_left (fun a ha => by
      unfold fsItem
      rw [accountBalance_restrict accounts vouchers a (List.mem_filter.mp ha).1])
  have hitem2 : (accounts.filter (fun a =>
        !(accountBalance vouchers a == 0) && !(isPLType a.type))).map
          (fsItem (restrictToChart accounts vouchers))
      = (accounts.filter (fun a =>
        !(accountBalance vouchers a == 0) && !(isPLType a.type))).map (fsItem vouchers) :=
    List.map_congr_left (fun a ha => by
      unfold fsItem
      rw [accountBalance_restrict accounts vouchers a (List.mem_filter.mp ha).1])
  have hni : accounts.map (niContrib (restrictToChart accounts vouchers))
      = accounts.map (niContrib vouchers) :=
    List.map_congr_left (fun a ha => niContrib_restrict accounts vouchers a ha)
  rw [hitem1, hitem2, hni]

/-! ## The claims -/

/-- C1 (corrected). In `src/src/App.tsx`, `handleSubmit` is not an "iff
balanced" gate: a balanced submission whose overall description is blank is
also rejected (`if (!description.trim()) return alert(...)`), so commitment
is not equivalent to balance alone.  This counterexample exhibits a balanced
submission with positive totals that is nevertheless rejected, and rejected
with the blank-description error rather than `ImbalancedVoucher`. -/
theorem c1_counterexample :
    totalDebit blankDescSubmission = totalCredit blankDescSubmission
    ∧ 0 < totalDebit blankDescSubmission
    ∧ handleSubmit "v-1" 0 blankDescSubmission []
        = .error VoucherError.EmptyDescription := by
  refine ⟨by decide, by decide, rfl⟩

/-- C1 (amended): `handleSubmit` commits a voucher if and only if the debit
total equals the credit total, that common total is positive, AND the overall
description is non-blank; a submission failing the balance condition itself is
rejected with `ImbalancedVoucher` (an error carries no new history, so a
rejection leaves the history unchanged); and every voucher of a history built
through successful submissions has equal, strictly positive totals. -/
theorem c1_append_balance (newId : String) (now : Nat) (s : Submission)
    (vouchers H : List Voucher) (hH : BuiltByAppend H) :
    (handleSubmit newId now s vouchers
        = .ok (addVoucher (mkVoucher newId now s) vouchers)
      ↔ totalDebit s = totalCredit s ∧ 0 < totalDebit s
          ∧ isBlank s.description = false)
    ∧ ((totalDebit s ≠ totalCredit s ∨ totalDebit s = 0) →
        handleSubmit newId now s vouchers = .error VoucherError.ImbalancedVoucher)
    ∧ (∀ v ∈ H, voucherDebitTotal v = voucherCreditTotal v ∧ 0 < voucherDebitTotal v) := by
  refine ⟨?_, ?_, builtByAppend_invariant H hH⟩
  · rw [handleSubmit_ok_iff]
    constructor
    · rintro ⟨h1, h2, h3, _⟩
      exact ⟨h1, h2, h3⟩
    · rintro ⟨h1, h2, h3⟩
      exact ⟨h1, h2, h3, rfl⟩
  · intro hbad
    have hb : isBalanced s = false := by
      unfold isBalanced
      rcases hbad with h | h
      · rw [decide_eq_false h, Bool.and_false]
      · rw [h]
        simp
    unfold handleSubmit
    rw [hb]
    rfl

theorem c1_append_balance_witness :
    handleSubmit "v-1" 7 saleSubmission []
      = .ok (addVoucher (mkVoucher "v-1" 7 saleSubmission) []) :=
  ((c1_append_balance "v-1" 7 saleSubmission [] [] BuiltByAppend.nil).1).mpr
    (by refine ⟨by decide, by decide, by decide⟩)

/-- C2 (confirmed). For a history built solely from successful submissions
against the chart (whose account selector restricts every entry line to chart
accounts), the trial balance has equal grand debit and credit totals; the
chart's ids are pairwise distinct, as the data model requires. -/
theorem c2_trial_balance_grand_totals (accounts : List Account) (H : List Voucher)
    (hnd : (accounts.map (fun a => a.id)).Nodup)
    (hH : BuiltByAppendOn accounts H) :
    (totals (tbData accounts H)).1 = (totals (tbData accounts H)).2 := by
  have hprops := builtByAppendOn_invariant accounts H hH
  exact grand_totals_equal accounts H hnd
    (fun v hv => (hprops v hv).1)
    (fun v hv => (hprops v hv).2.2)

theorem c2_trial_balance_grand_totals_witness :
    (totals (tbData smallChart smallHistory)).1
      = (totals (tbData smallChart smallHistory)).2 :=
  c2_trial_balance_grand_totals smallChart smallHistory (by decide)
    (BuiltByAppendOn.append "v-1" 7 saleSubmission [] smallHistory
      BuiltByAppendOn.nil (by decide) rfl)

/-- C3 (confirmed). `reverseVoucher` prepends a new voucher whose debit
entries are the original's credit entries and vice versa (amounts and
per-line descriptions preserved, as the lists are copied verbatim), leaving
the rest of the history — in particular the original voucher — unchanged;
the pair's combined contribution to any account's net balance under the
trial-balance sign convention is zero, and consequently a history containing
exactly the pair on top of a remainder has the same net balance for every
account as the remainder alone. -/
theorem c3_reverse_voucher (newId today : String) (now : Nat) (v : Voucher)
    (vouchers : List Voucher) :
    ∃ v', reverseVoucher newId today now v vouchers = v' :: vouchers
      ∧ v'.debitEntries = v.creditEntries
      ∧ v'.creditEntries = v.debitEntries
      ∧ (∀ a : Account, voucherNet a v + voucherNet a v' = 0)
      ∧ (∀ (rest : List Voucher) (a : Account),
          accountBalance (v' :: v :: rest) a = accountBalance rest a) := by
  refine ⟨{ id := newId, date := today,
            debitEntries := v.creditEntries, creditEntries := v.debitEntries,
            description := "【反対仕訳】" ++ v.description, createdAt := now },
    rfl, rfl, rfl, ?_, ?_⟩
  · intro a
    unfold voucherNet
    by_cases h : (a.type == AccountType.ASSET || a.type == AccountType.EXPENSE) = true
    · rw [if_pos h, if_pos h]
      show (entriesMatchedTotal a.id v.debitEntries : Int)
            - entriesMatchedTotal a.id v.creditEntries
          + ((entriesMatchedTotal a.id v.creditEntries : Int)
            - entriesMatchedTotal a.id v.debitEntries) = 0
      ring
    · rw [if_neg h, if_neg h]
      show (entriesMatchedTotal a.id v.creditEntries : Int)
            - entriesMatchedTotal a.id v.debitEntries
          + ((entriesMatchedTotal a.id v.debitEntries : Int)
            - entriesMatchedTotal a.id v.creditEntries) = 0
      ring
  · intro rest a
    rw [accountBalance_eq_sum_voucherNet, accountBalance_eq_sum_voucherNet]
    simp only [List.map_cons, List.sum_cons]
    unfold voucherNet
    by_cases h : (a.type == AccountType.ASSET || a.type == AccountType.EXPENSE) = true
    · rw [if_pos h, if_pos h]
      show (entriesMatchedTotal a.id v.creditEntries : Int)
            - entriesMatchedTotal a.id v.debitEntries
          + ((entriesMatchedTotal a.id v.debitEntries : Int)
              - entriesMatchedTotal a.id v.creditEntries
            + ((rest.map (voucherNet a)).sum)) = (rest.map (voucherNet a)).sum
      ring
    · rw [if_neg h, if_neg h]
      show (entriesMatchedTotal a.id v.debitEntries : Int)
            - entriesMatchedTotal a.id v.creditEntries
          + ((entriesMatchedTotal a.id v.creditEntries : Int)
              - entriesMatchedTotal a.id v.debitEntries
            + ((rest.map (voucherNet a)).sum)) = (rest.map (voucherNet a)).sum
      ring

/-- C4 (confirmed). For an account resolved from the chart, the running
balance after the last line of its general ledger (0 when there are no lines)
equals the net balance the trial balance computes for it: debit total minus
credit total for asset/expense accounts, credit total minus debit total for
the other types. -/
theorem c4_ledger_vs_trial_balance (accounts : List Account) (vouchers : List Voucher)
    (selectedId : String) (a : Account)
    (hfind : accounts.find? (fun x => x.id == selectedId) = some a) :
    lastBalance (ledgerLines accounts vouchers selectedId)
      = (tbRow vouchers a).balance := by
  have hid : a.id = selectedId := by simpa using List.find?_some hfind
  have hAE : isAssetOrExpense accounts selectedId
      = (a.type == AccountType.ASSET || a.type == AccountType.EXPENSE) := by
    unfold isAssetOrExpense
    rw [hfind]
  rw [lastBalance_ledgerLines, hAE]
  show _ = accountBalance vouchers a
  unfold accountBalance
  rw [hid]

theorem c4_ledger_vs_trial_balance_witness :
    lastBalance (ledgerLines smallChart smallHistory "101")
      = (tbRow smallHistory cashAccount).balance :=
  c4_ledger_vs_trial_balance smallChart smallHistory "101" cashAccount (by decide)

/-- C5 (confirmed). The ledger view stable-sorts the history ascending by
date (the sorted list is a permutation, is pairwise non-decreasing on dates,
and every date's vouchers keep their original relative order), and then emits
exactly the specification's lines: one line per matching entry, vouchers in
sorted order, each voucher's debit entries then credit entries in entry
order, signed `+amount`/`-amount` by the account type's convention, carrying
the voucher date, the entry description when non-empty else the voucher
description, the amount in its own column with 0 in the other, and the
running balance after the line. -/
theorem c5_ledger_projection (accounts : List Account) (vouchers : List Voucher)
    (selectedId : String) (a : Account)
    (hfind : accounts.find? (fun x => x.id == selectedId) = some a) :
    (sortedVouchers vouchers).Perm vouchers
    ∧ (sortedVouchers vouchers).Pairwise
        (fun u w => charsLe u.date.data w.date.data = true)
    ∧ (∀ d : String, (sortedVouchers vouchers).filter (fun v => v.date == d)
        = vouchers.filter (fun v => v.date == d))
    ∧ ledgerLines accounts vouchers selectedId
        = specLines (a.type == AccountType.ASSET || a.type == AccountType.EXPENSE) 0
            ((sortedVouchers vouchers).flatMap (taggedOf selectedId)) := by
  have hAE : isAssetOrExpense accounts selectedId
      = (a.type == AccountType.ASSET || a.type == AccountType.EXPENSE) := by
    unfold isAssetOrExpense
    rw [hfind]
  exact ⟨sortedVouchers_perm vouchers, sortedVouchers_sorted vouchers,
    fun d => sortedVouchers_stable vouchers d,
    by rw [ledgerLines_eq_specLines, hAE]⟩

theorem c5_ledger_projection_witness :
    ledgerLines smallChart smallHistory "101"
      = specLines
          (cashAccount.type == AccountType.ASSET
            || cashAccount.type == AccountType.EXPENSE) 0
          ((sortedVouchers smallHistory).flatMap (taggedOf "101")) :=
  (c5_ledger_projection smallChart smallHistory "101" cashAccount (by decide)).2.2.2

/-- C6 (confirmed). The net income of the financial statements equals the
sum of the trial-balance net balances of the REVENUE rows minus the sum of
the net balances of the EXPENSE rows, for every chart and history. -/
theorem c6_net_income (accounts : List Account) (vouchers : List Voucher) :
    (statement accounts vouchers).netIncome
      = (((tbData accounts vouchers).filter
            (fun r => r.type == AccountType.REVENUE)).map (fun r => r.balance)).sum
        - (((tbData accounts vouchers).filter
            (fun r => r.type == AccountType.EXPENSE)).map (fun r => r.balance)).sum := by
  rw [statement_eq]
  show (accounts.map (niContrib vouchers)).sum = _
  rw [tb_type_balance_sum, tb_type_balance_sum, ← sum_map_sub_int]
  refine congrArg List.sum (List.map_congr_left (fun a _ => ?_))
  rw [niContrib_split vouchers a]

/-- C7 (corrected). The financial statements do NOT reuse the trial balance's
zero-activity filtering: they skip an account when its NET BALANCE is zero
(`if (amount === 0) return`).  An account whose debit and credit totals are
equal and non-zero has a trial-balance row but no statement item, refuting
the claimed "appears in one iff it appears in the other".  Concretely, a
single voucher debiting and crediting the same asset account 100 yields a
trial-balance row (100, 100, 0) while both statement item lists are empty. -/
theorem c7_counterexample :
    tbData [cashAccount]
        [⟨"v-1", "2024-01-05", [⟨"101", 100, ""⟩], [⟨"101", 100, ""⟩], "wash", 7⟩]
      = [⟨"1101", "Cash", AccountType.ASSET, 100, 100, 0⟩]
    ∧ (statement [cashAccount]
        [⟨"v-1", "2024-01-05", [⟨"101", 100, ""⟩], [⟨"101", 100, ""⟩], "wash", 7⟩]).plItems
      = []
    ∧ (statement [cashAccount]
        [⟨"v-1", "2024-01-05", [⟨"101", 100, ""⟩], [⟨"101", 100, ""⟩], "wash", 7⟩]).bsItems
      = [] := by
  refine ⟨by decide, by decide, by decide⟩

/-- C7 (amended): the financial statements include exactly the accounts with
non-zero net balance (profit-and-loss items for REVENUE/EXPENSE, balance-sheet
items otherwise), while the trial balance includes exactly the accounts with
non-zero activity; every account with non-zero net balance has activity, so
each statement item has a trial-balance row but not conversely. -/
theorem c7_statement_filtering (accounts : List Account) (vouchers : List Voucher) :
    (statement accounts vouchers).plItems
      = (accounts.filter (fun a =>
          !(accountBalance vouchers a == 0) && isPLType a.type)).map (fsItem vouchers)
    ∧ (statement accounts vouchers).bsItems
      = (accounts.filter (fun a =>
          !(accountBalance vouchers a == 0) && !(isPLType a.type))).map (fsItem vouchers)
    ∧ tbData accounts vouchers
      = (accounts.filter (hasActivity vouchers)).map (tbRow vouchers)
    ∧ (∀ a : Account,
        ((accountBalance vouchers a == 0) || hasActivity vouchers a) = true) := by
  refine ⟨by rw [statement_eq], by rw [statement_eq],
    tbData_eq_filter_map accounts vouchers, ?_⟩
  intro a
  by_cases hz : (accountBalance vouchers a == 0) = true
  · rw [hz]
    rfl
  · rw [balance_ne_zero_activity vouchers a (by simpa using hz)]
    simp

/-- C8 (confirmed). For an account present in the chart: when its standard
flag is set the removal operation fails with `Protected` (no new chart is
produced, so the chart is unchanged); when the flag is clear it removes
exactly the accounts carrying that id — every other account is kept, nothing
else is added, and on a duplicate-free chart the size shrinks by exactly
one. -/
theorem c8_remove_account (accounts : List Account) (targetId : String) (a : Account)
    (hfind : accounts.find? (fun x => x.id == targetId) = some a) :
    (a.isStandard = true →
      removeAccount accounts targetId = .error RemoveAccountError.Protected)
    ∧ (a.isStandard = false →
        removeAccount accounts targetId
            = .ok (accounts.filter (fun b => !(b.id == targetId)))
        ∧ (∀ b ∈ accounts, b.id ≠ targetId →
            b ∈ accounts.filter (fun b => !(b.id == targetId)))
        ∧ (∀ b ∈ accounts.filter (fun b => !(b.id == targetId)),
            b ∈ accounts ∧ b.id ≠ targetId)
        ∧ ((accounts.map (fun x => x.id)).Nodup →
            (accounts.filter (fun b => !(b.id == targetId))).length + 1
              = accounts.length)) := by
  constructor
  · intro hstd
    unfold removeAccount
    rw [hfind]
    exact if_pos hstd
  · intro hstd
    refine ⟨?_, ?_, ?_, ?_⟩
    · unfold removeAccount
      rw [hfind]
      exact if_neg (by simp [hstd])
    · intro b hb hbne
      exact List.mem_filter.mpr ⟨hb, by simp [hbne]⟩
    · intro b hb
      have h := List.mem_filter.mp hb
      refine ⟨h.1, ?_⟩
      have := h.2
      simpa using this
    · intro hnd
      have hid : a.id = targetId := by simpa using List.find?_some hfind
      exact filter_ne_length accounts targetId hnd
        ⟨a, List.mem_of_find?_eq_some hfind, hid⟩

theorem c8_remove_account_witness :
    removeAccount LOGISTICS_ACCOUNTS "101" = .error RemoveAccountError.Protected :=
  (c8_remove_account LOGISTICS_ACCOUNTS "101"
    ⟨"101", "1101", "現金", AccountType.ASSET, true⟩ (by decide)).1 rfl

/-- C9 (confirmed). `addAccount` rejects an empty code or name with
`InvalidInput` (an error produces no new chart, so the chart is unchanged),
rejects a code already present with `DuplicateCode`, and otherwise yields a
chart holding exactly the old accounts plus one new account with the given
id, code, name and type, sorted ascending by code under string comparison,
with codes still pairwise distinct whenever they were before. -/
theorem c9_add_account (newId code name : String) (ty : AccountType)
    (accounts : List Account) :
    ((code = "" ∨ name = "") →
      addAccount newId code name ty accounts = .error AddAccountError.InvalidInput)
    ∧ (code ≠ "" → name ≠ "" → (∃ a ∈ accounts, a.code = code) →
        addAccount newId code name ty accounts = .error AddAccountError.DuplicateCode)
    ∧ (code ≠ "" → name ≠ "" → (∀ a ∈ accounts, a.code ≠ code) →
        ∃ res, addAccount newId code name ty accounts = .ok res
          ∧ res.Perm ((⟨newId, code, name, ty, false⟩ : Account) :: accounts)
          ∧ res.length = accounts.length + 1
          ∧ res.Pairwise (fun x y => charsLe x.code.data y.code.data = true)
          ∧ ((accounts.map (fun x => x.code)).Nodup →
              (res.map (fun x => x.code)).Nodup)) := by
  refine ⟨?_, ?_, ?_⟩
  · intro h
    have hc : (code == "" || name == "") = true := by
      rcases h with h | h <;> simp [h]
    unfold addAccount
    rw [hc]
    rfl
  · intro h1 h2 hdup
    have hc : (code == "" || name == "") = false := by
      simp [h1, h2]
    obtain ⟨a, ha, hacode⟩ := hdup
    have hany : accounts.any (fun a => a.code == code) = true :=
      List.any_eq_true.mpr ⟨a, ha, by simp [hacode]⟩
    unfold addAccount
    rw [hc, hany]
    rfl
  · intro h1 h2 hfree
    have hc : (code == "" || name == "") = false := by
      simp [h1, h2]
    have hany : accounts.any (fun a => a.code == code) = false :=
      List.any_eq_false.mpr (fun a ha => by simp [hfree a ha])
    have hok : addAccount newId code name ty accounts
        = .ok ((accounts ++ [(⟨newId, code, name, ty, false⟩ : Account)]).mergeSort
              (fun a b => charsLe a.code.data b.code.data)) := by
      unfold addAccount
      rw [hc, hany]
      rfl
    have hperm : ((accounts ++ [(⟨newId, code, name, ty, false⟩ : Account)]).mergeSort
            (fun a b => charsLe a.code.data b.code.data)).Perm
        ((⟨newId, code, name, ty, false⟩ : Account) :: accounts) :=
      (List.mergeSort_perm _ _).trans (List.perm_append_singleton _ _)
    refine ⟨_, hok, hperm, ?_, ?_, ?_⟩
    · rw [hperm.length_eq]
      rfl
    · exact List.sorted_mergeSort codeLe_trans codeLe_total _
    · intro hnodup
      have hnew : code ∉ accounts.map (fun x => x.code) := by
        intro hmem
        obtain ⟨a, ha, hacode⟩ := List.mem_map.mp hmem
        exact hfree a ha hacode
      have hcons : (((⟨newId, code, name, ty, false⟩ : Account)
            :: accounts).map (fun x => x.code)).Nodup := by
        rw [List.map_cons]
        exact List.nodup_cons.mpr ⟨hnew, hnodup⟩
      exact (hperm.map (fun x => x.code)).symm.nodup hcons

theorem c9_add_account_witness :
    addAccount "acc-9" "" "extra" AccountType.EXPENSE LOGISTICS_ACCOUNTS
      = .error AddAccountError.InvalidInput :=
  (c9_add_account "acc-9" "" "extra" AccountType.EXPENSE LOGISTICS_ACCOUNTS).1
    (Or.inl rfl)

/-- C10 (confirmed). The trial balance and the financial statements only see
entries whose account id resolves in the current chart: dropping every
unmatched entry line from the history changes neither report, and every
trial-balance row arises from a chart account.  Consequently the grand-total
equality can be broken by chart edits: the fixture history is built solely
from successful submissions against `c10Chart`, yet after removing the
non-standard account `901` (still referenced by the history) the grand debit
total (100) no longer equals the grand credit total (0). -/
theorem c10_chart_scoping :
    (∀ (accounts : List Account) (vouchers : List Voucher),
        tbData accounts (restrictToChart accounts vouchers) = tbData accounts vouchers
        ∧ statement accounts (restrictToChart accounts vouchers)
            = statement accounts vouchers)
    ∧ (∀ (accounts : List Account) (vouchers : List Voucher) (r : TBRow),
        r ∈ tbData accounts vouchers → ∃ a ∈ accounts, r = tbRow vouchers a)
    ∧ (BuiltByAppendOn c10Chart c10History
        ∧ removeAccount c10Chart "901" = .ok c10ChartAfter
        ∧ (totals (tbData c10ChartAfter c10History)).1
            ≠ (totals (tbData c10ChartAfter c10History)).2) := by
  refine ⟨fun accounts vouchers =>
      ⟨tbData_restrict accounts vouchers, statement_restrict accounts vouchers⟩,
    ?_, ?_, ?_, ?_⟩
  · intro accounts vouchers r hr
    unfold tbData at hr
    have hr' := List.mem_filter.mp hr
    obtain ⟨a, ha, hrow⟩ := List.mem_map.mp hr'.1
    exact ⟨a, ha, hrow.symm⟩
  · exact BuiltByAppendOn.append "v-1" 7 c10Submission [] c10History
      BuiltByAppendOn.nil (by decide) rfl
  · rfl
  · decide

theorem c10_chart_scoping_witness :
    tbData c10Chart (restrictToChart c10Chart c10History) = tbData c10Chart c10History :=
  (c10_chart_scoping.1 c10Chart c10History).1

end ASLA
